import Mathlib

/-!
Shallow embedding of `scripts/easylist-monitor.js` (class `EasyListMonitor` and
the `main` entry point), together with proofs about its change-detection,
throttling, persistence and reporting behaviour.

Modelling conventions:
* JavaScript `Date` values are epoch milliseconds, embedded as `Int`.
  `new Date()` for a cycle is a single parameter `now` (the script calls it
  several times in one cycle; no claim depends on the clock advancing during
  a cycle).  `new Date(string)` — the external Date parser — is a parameter
  `parseDate : String → Int`; stored ISO timestamps are kept as their time
  values (ISO serialisation round-trips for valid dates).
* `crypto.createHash('sha256')...digest('hex')` (method `calculateHash`,
  line 54) is an external library call; the embedding is parametric in it as
  `hashFn : String → String`.
* JavaScript objects used as string-keyed maps (`hashes.json`,
  `metadata.json`) are embedded as functions `String → Option _`; the spread
  copies `{...currentHashes}` are the identity on such maps and
  `obj[k] = v` is a pointwise functional update.
* JavaScript string truthiness (`undefined`, `null` and `""` are falsy) is
  made explicit by `jsTruthy`.
* A JS string's `.length` is its UTF-16 code-unit count (`jsStringLength`),
  which differs from the UTF-8 byte count (`utf8ByteCount`) of the fetched
  body for non-ASCII content.
* A per-resource failure (a rejected `fetch`, non-ok HTTP status, or a
  per-resource file write error — all caught by the `catch` at line 238) is
  the outcome `FetchOutcome.failure`; the per-cycle state-file writes
  (`saveHashes` / `saveMetadata` / the summary write), whose failure
  propagates out of `checkForUpdates`, are modelled by a `saveOk : Bool`
  parameter and an `Except` result.
-/

namespace EasyListMonitor

/-- JavaScript truthiness of a nullable string: `undefined`/`null` and the
empty string are falsy, every other string is truthy. -/
def jsTruthy : Option String → Bool
  | none => false
  | some s => s != ""

/-- Functional update, modelling `m[k] = v` on a JS object used as a string-keyed map. -/
def updateMap {α : Type} (m : String → Option α) (k : String) (v : α) :
    String → Option α :=
  fun q => if q = k then some v else m q

/-- The headers extracted by `fetchList` (lines 66-71). -/
structure Headers where
  lastModified : Option String
  etag : Option String
  contentLength : Option String
  cacheControl : Option String
deriving DecidableEq

/-- One entry of `metadata.json` (written at lines 213-219; fields may be
absent in a hand-edited or older file, hence all optional).  Timestamp
fields hold time values (the script stores ISO strings, which are nonempty,
so JS truthiness of a stored timestamp is `Option.isSome` here). -/
structure Metadata where
  lastModified : Option Int
  etag : Option String
  version : Option String
  lastChecked : Option Int
  size : Option Nat
deriving DecidableEq

/-- Result of `extractVersion` (lines 82-93). -/
structure VersionInfo where
  version : Option String
  lastModified : Option String
  expires : Option String
deriving DecidableEq

/-- One element of `updatedLists` (lines 198-210).  The source's `ageHours`
is `((now − lastModified)/3600000).toFixed(1)`, a decimal string produced by
float formatting; the embedding records the exact millisecond difference
`ageMillis = now − lastModified` instead. -/
structure UpdateEvent where
  filename : String
  url : String
  hash : String
  version : Option String
  lastModified : Int
  serverLastModified : Option String
  etag : Option String
  size : Nat
  changeReason : String
  expires : Option String
  ageMillis : Int
deriving DecidableEq

/-- Outcome of `fetchList(url)` (lines 58-80) for one resource, including
any per-resource error later caught at line 238. -/
inductive FetchOutcome where
  | success (content : String) (headers : Headers)
  | failure
deriving DecidableEq

/-- The in-memory `hashes.json` map. -/
abbrev HashesMap := String → Option String

/-- The in-memory `metadata.json` map. -/
abbrev MetadataMap := String → Option Metadata

/-- The mutable state of the `for` loop of `checkForUpdates`
(lines 130-132): `newHashes`, `newMetadata` and `updatedLists`. -/
structure LoopState where
  newHashes : HashesMap
  newMetadata : MetadataMap
  updatedLists : List UpdateEvent

/-- The value returned by `checkForUpdates` (lines 260 and 264), extended
with flags recording which persistence writes were performed
(`saveHashes` at line 244, `saveMetadata` at lines 245 and 263, the
summary write at lines 255-258). -/
structure CycleResult where
  hasUpdates : Bool
  updatedLists : List UpdateEvent
  newHashes : HashesMap
  newMetadata : MetadataMap
  hashesSaved : Bool
  metadataSaved : Bool
  summarySaved : Bool

/-- The static `EASYLIST_URLS` table (lines 6-9). -/
def EASYLIST_URLS : List (String × String) :=
  [("easylist.txt", "https://easylist.to/easylist/easylist.txt"),
   ("easyprivacy.txt", "https://easylist.to/easylist/easyprivacy.txt")]

/-- The number of UTF-16 code units of a string: JavaScript's
`String.prototype.length`, used by the source as `content.length`. -/
def jsStringLength (s : String) : Nat :=
  (s.data.map (fun c => if c.toNat < 65536 then 1 else 2)).sum

/-- The UTF-8 byte count of a string — the byte length of the fetched HTTP
body that decodes to it. -/
def utf8ByteCount (s : String) : Nat :=
  (s.data.map (fun c =>
    if c.toNat < 128 then 1
    else if c.toNat < 2048 then 2
    else if c.toNat < 65536 then 3
    else 4)).sum

/-- Split a character list at newline characters. -/
def splitCharList : List Char → List (List Char)
  | [] => [[]]
  | c :: cs =>
    let r := splitCharList cs
    if c = '\n' then [] :: r
    else
      match r with
      | [] => [[c]]
      | l :: ls => (c :: l) :: ls

/-- The lines of a string (split at `'\n'`), as JavaScript's multiline-mode
regex anchors `^`/`$` delimit them. -/
def splitLines (s : String) : List String :=
  (splitCharList s.data).map (fun l => String.mk l)

/-- First match of the multiline regex `^<pre><capture (.+)>$` in `content`:
the first line that starts with `pre` and has at least one further
character, yielding the rest of that line.  Used for the source's
`content.match(/^! Version: (.+)$/m)` and friends. -/
def headerValue (pre content : String) : Option String :=
  (splitLines content).findSome? (fun line =>
    if pre.data.isPrefixOf line.data ∧ pre.data.length < line.data.length
    then some (String.mk (line.data.drop pre.data.length))
    else none)

/-- Method `extractVersion` (lines 82-93). -/
def extractVersion (content : String) : VersionInfo :=
  { version := headerValue ("! Version: ") content
    lastModified := headerValue ("! Last modified: ") content
    expires := headerValue ("! Expires: ") content }

/-- Method `parseLastModified` (lines 95-116): effective last-modified time from
the `Last-Modified` header and the content's `"! Last modified:"` line,
taking the later when both are available, the available one when only one
is, and `now` when neither is. -/
def parseLastModified (parseDate : String → Int)
    (lastModifiedHeader : Option String) (listContent : String)
    (now : Int) : Int :=
  let serverTime : Option Int :=
    if jsTruthy lastModifiedHeader then lastModifiedHeader.map parseDate
    else none
  let contentTime : Option Int :=
    (headerValue ("! Last modified: ") listContent).map parseDate
  match serverTime, contentTime with
  | some s, some c => if s > c then s else c
  | some s, none => s
  | none, some c => c
  | none, none => now

/-- The throttle guard of lines 142-150: true when prior metadata has a
`lastChecked` time less than 90 minutes before `now`
(`(now − t)/60000 < 90` over the rationals is exactly
`now − t < 90·60000` over the integers). -/
def throttleHit (now : Int) (oldMetadata : Option Metadata) : Bool :=
  match oldMetadata with
  | some m =>
    match m.lastChecked with
    | some t => now - t < 90 * (1000 * 60)
    | none => false
  | none => false

/-- Method `fetchList` (line 152) is invoked for a resource exactly when the
throttle guard does not `continue` past it. -/
def fetchOccurs (now : Int) (currentMetadata : MetadataMap)
    (filename : String) : Bool :=
  !(throttleHit now (currentMetadata filename))

/-- Reason concatenation of lines 174 and 182, the JS statement appending `(changeReason ? sep : empty) + frag`. -/
def reasonAppend (r frag : String) : String :=
  r ++ (if r = "" then ("") else (" and ")) ++ frag

/-- The three change signals of lines 160-184, producing
`(hasChanged, changeReason)`.  Method 1 compares `oldHash !== newHash`
(true when no stored hash exists, since `undefined !== string`); method 2
fires when prior metadata has a stored `lastModified` and the effective
time is strictly later; method 3 fires when both the response and prior
metadata carry truthy ETags that differ. -/
def changeDecision (oldHash : Option String) (oldMetadata : Option Metadata)
    (newHash : String) (lastModified : Int) (etagHeader : Option String) :
    Bool × String :=
  let st1 : Bool × String :=
    if oldHash ≠ some newHash then (true, "content hash changed")
    else (false, "")
  let st2 : Bool × String :=
    match oldMetadata with
    | some m =>
      match m.lastModified with
      | some oldTime =>
        if lastModified > oldTime then (true, reasonAppend st1.2 ("timestamp newer"))
        else st1
      | none => st1
    | none => st1
  let st3 : Bool × String :=
    match etagHeader, oldMetadata with
    | some etag, some m =>
      match m.etag with
      | some oldEtag =>
        if etag ≠ "" ∧ oldEtag ≠ "" then
          if etag ≠ oldEtag then (true, reasonAppend st2.2 ("ETag changed"))
          else st2
        else st2
      | none => st2
    | _, _ => st2
  st3

/-- The reason displayed at line 187: `${changeReason || 'first time'}`. -/
def reportedChangeReason (changeReason : String) : String :=
  if changeReason = "" then ("first time") else changeReason

/-- The body of the `for` loop of `checkForUpdates` (lines 136-241) for one
`[filename, url]` entry: throttle, fetch (with per-resource errors caught),
change detection, and the per-branch updates of `newHashes`, `newMetadata`
and `updatedLists`. -/
def processResource (hashFn : String → String) (parseDate : String → Int)
    (now : Int) (currentHashes : HashesMap) (currentMetadata : MetadataMap)
    (fetchResult : String → FetchOutcome) (s : LoopState)
    (entry : String × String) : LoopState :=
  let filename := entry.1
  let url := entry.2
  let oldMetadata := currentMetadata filename
  if throttleHit now oldMetadata then s
  else
    match fetchResult url with
    | .failure => s
    | .success content headers =>
      let newHash := hashFn content
      let versionInfo := extractVersion content
      let lastModified :=
        parseLastModified parseDate headers.lastModified content now
      let oldHash := currentHashes filename
      let dec := changeDecision oldHash oldMetadata newHash lastModified
        headers.etag
      if dec.1 || !(jsTruthy oldHash) then
        { newHashes := updateMap s.newHashes filename newHash
          newMetadata := updateMap s.newMetadata filename
            { lastModified := some lastModified
              etag := headers.etag
              version := versionInfo.version
              lastChecked := some now
              size := some (jsStringLength content) }
          updatedLists := s.updatedLists ++
            [{ filename := filename
               url := url
               hash := newHash
               version := versionInfo.version
               lastModified := lastModified
               serverLastModified := headers.lastModified
               etag := headers.etag
               size := jsStringLength content
               changeReason := dec.2
               expires := versionInfo.expires
               ageMillis := now - lastModified }] }
      else
        match oldMetadata with
        | some m =>
          let mm : Metadata := { m with lastChecked := some now }
          { s with newMetadata := updateMap s.newMetadata filename mm }
        | none => s

/-- The loop state at line 130-132: `updatedLists = []` and the spread
copies of the loaded maps. -/
def initState (currentHashes : HashesMap) (currentMetadata : MetadataMap) :
    LoopState :=
  { newHashes := currentHashes
    newMetadata := currentMetadata
    updatedLists := [] }

/-- The whole resource loop of `checkForUpdates` (lines 136-241). -/
def runCycle (hashFn : String → String) (parseDate : String → Int)
    (now : Int) (urls : List (String × String)) (currentHashes : HashesMap)
    (currentMetadata : MetadataMap) (fetchResult : String → FetchOutcome) :
    LoopState :=
  urls.foldl
    (processResource hashFn parseDate now currentHashes currentMetadata
      fetchResult)
    (initState currentHashes currentMetadata)

/-- Method `checkForUpdates` (lines 125-266): run the loop, then persist —
`saveHashes`, `saveMetadata` and the summary when `updatedLists` is
nonempty, `saveMetadata` alone otherwise.  `saveOk` is whether the
persistence writes succeed; a failed write propagates (`Except.error`). -/
def checkForUpdates (hashFn : String → String) (parseDate : String → Int)
    (now : Int) (saveOk : Bool) (urls : List (String × String))
    (currentHashes : HashesMap) (currentMetadata : MetadataMap)
    (fetchResult : String → FetchOutcome) : Except Unit CycleResult :=
  let s := runCycle hashFn parseDate now urls currentHashes currentMetadata
    fetchResult
  if s.updatedLists.length > 0 then
    if saveOk then
      .ok { hasUpdates := true
            updatedLists := s.updatedLists
            newHashes := s.newHashes
            newMetadata := s.newMetadata
            hashesSaved := true
            metadataSaved := true
            summarySaved := true }
    else .error ()
  else
    if saveOk then
      .ok { hasUpdates := false
            updatedLists := []
            newHashes := s.newHashes
            newMetadata := s.newMetadata
            hashesSaved := false
            metadataSaved := true
            summarySaved := false }
    else .error ()

/-- The exit code of `main` (lines 281-316): 0 when `checkForUpdates`
returns (lines 301 and 310), 1 when it throws (line 314). -/
def mainExitCode (hashFn : String → String) (parseDate : String → Int)
    (now : Int) (saveOk : Bool) (urls : List (String × String))
    (currentHashes : HashesMap) (currentMetadata : MetadataMap)
    (fetchResult : String → FetchOutcome) : Nat :=
  match checkForUpdates hashFn parseDate now saveOk urls currentHashes
    currentMetadata fetchResult with
  | .ok _ => 0
  | .error _ => 1

/-- One bullet of the multi-file commit message (line 274):
`- <filename>` plus ` (v<version>)` when the version is truthy. -/
def bulletLine (list : UpdateEvent) : String :=
  "- " ++ list.filename ++
    (match list.version with
     | some v => if v = "" then ("") else (" (v") ++ v ++ ")"
     | none => "")

/-- Method `generateCommitMessage` (lines 268-277). -/
def generateCommitMessage (updatedLists : List UpdateEvent) : String :=
  match updatedLists with
  | [list] =>
    "Update " ++ list.filename ++
      (match list.version with
       | some v => if v = "" then ("") else (" to v") ++ v
       | none => "")
  | _ =>
    "Update " ++ toString updatedLists.length ++ " EasyList files\n\n" ++
      String.intercalate ("\n") (updatedLists.map bulletLine)

/-- A header record with every field absent, for concrete instances. -/
def noHeaders : Headers := ⟨none, none, none, none⟩


/-- A concrete metadata entry whose `lastChecked` is time 0. -/
def mChecked0 : Metadata := ⟨none, none, none, some 0, none⟩


/-- A concrete metadata entry with every field absent. -/
def mEmpty : Metadata := ⟨none, none, none, none, none⟩


/-- A concrete update event with a version. -/
def evWithVersion : UpdateEvent :=
  ⟨"a.txt", "u", "H", some ("1.2"), 0, none, none, 1, "r", none, 0⟩


/-- A concrete update event without a version. -/
def evNoVersion : UpdateEvent :=
  ⟨"b.txt", "u2", "H2", none, 0, none, none, 1, "r", none, 0⟩


end EasyListMonitor

namespace EasyListMonitor

section Lemmas

variable (hashFn : String → String) (parseDate : String → Int) (now : Int)
variable (chs : HashesMap) (cmd : MetadataMap)
variable (fetchResult : String → FetchOutcome)

theorem processResource_throttled (s : LoopState) (entry : String × String)
    (h : throttleHit now (cmd entry.1) = true) :
    processResource hashFn parseDate now chs cmd fetchResult s entry = s := by
  unfold processResource
  simp [h]

theorem processResource_failure (s : LoopState) (entry : String × String)
    (h : fetchResult entry.2 = .failure) :
    processResource hashFn parseDate now chs cmd fetchResult s entry = s := by
  unfold processResource
  by_cases ht : throttleHit now (cmd entry.1) = true
  · simp [ht]
  · simp only [Bool.not_eq_true] at ht
    simp [ht, h]

theorem processResource_hashes_ne (s : LoopState) (entry : String × String)
    (f : String) (h : entry.1 ≠ f) :
    (processResource hashFn parseDate now chs cmd fetchResult s entry).newHashes f
      = s.newHashes f := by
  unfold processResource
  by_cases ht : throttleHit now (cmd entry.1) = true
  · simp [ht]
  · simp only [Bool.not_eq_true] at ht
    cases hfr : fetchResult entry.2 with
    | failure => simp [ht, hfr]
    | success content headers =>
      simp only [ht, hfr, Bool.false_eq_true, if_false]
      split
    -- changed branch
      · simp [updateMap, Ne.symm h]
    -- unchanged branch
      · rcases hcm : cmd entry.1 with _ | m
        · simp [hcm]
        · simp [hcm, updateMap, Ne.symm h]

theorem processResource_metadata_ne (s : LoopState) (entry : String × String)
    (f : String) (h : entry.1 ≠ f) :
    (processResource hashFn parseDate now chs cmd fetchResult s entry).newMetadata f
      = s.newMetadata f := by
  unfold processResource
  by_cases ht : throttleHit now (cmd entry.1) = true
  · simp [ht]
  · simp only [Bool.not_eq_true] at ht
    cases hfr : fetchResult entry.2 with
    | failure => simp [ht, hfr]
    | success content headers =>
      simp only [ht, hfr, Bool.false_eq_true, if_false]
      split
      · simp [updateMap, Ne.symm h]
      · rcases hcm : cmd entry.1 with _ | m
        · simp [hcm]
        · simp [hcm, updateMap, Ne.symm h]

theorem foldl_frame (f : String) (l : List (String × String)) :
    ∀ s : LoopState, f ∉ l.map Prod.fst →
      (l.foldl (processResource hashFn parseDate now chs cmd fetchResult) s).newHashes f
          = s.newHashes f
        ∧ (l.foldl (processResource hashFn parseDate now chs cmd fetchResult) s).newMetadata f
          = s.newMetadata f := by
  induction l with
  | nil => intro s _; exact ⟨rfl, rfl⟩
  | cons e l ih =>
    intro s h
    simp only [List.map_cons, List.mem_cons, not_or] at h
    obtain ⟨h1, h2⟩ := h
    simp only [List.foldl_cons]
    have hrec := ih (processResource hashFn parseDate now chs cmd fetchResult s e) h2
    constructor
    · rw [hrec.1, processResource_hashes_ne hashFn parseDate now chs cmd fetchResult s e f (Ne.symm h1)]
    · rw [hrec.2, processResource_metadata_ne hashFn parseDate now chs cmd fetchResult s e f (Ne.symm h1)]

theorem processResource_unreported_frame (s : LoopState)
    (entry : String × String) (f : String)
    (h : f ∉ ((processResource hashFn parseDate now chs cmd fetchResult s
      entry).updatedLists.map (fun e => e.filename))) :
    (processResource hashFn parseDate now chs cmd fetchResult s
        entry).newHashes f = s.newHashes f
      ∧ f ∉ s.updatedLists.map (fun e => e.filename) := by
  by_cases ht : throttleHit now (cmd entry.1) = true
  · rw [processResource_throttled hashFn parseDate now chs cmd fetchResult
      s entry ht] at h ⊢
    exact ⟨rfl, h⟩
  · simp only [Bool.not_eq_true] at ht
    cases hfr : fetchResult entry.2 with
    | failure =>
      rw [processResource_failure hashFn parseDate now chs cmd fetchResult
        s entry hfr] at h ⊢
      exact ⟨rfl, h⟩
    | success content headers =>
      by_cases hdec : ((changeDecision (chs entry.1) (cmd entry.1)
          (hashFn content)
          (parseLastModified parseDate headers.lastModified content now)
          headers.etag).1 || !(jsTruthy (chs entry.1))) = true
      · unfold processResource at h ⊢
        simp only [ht, hfr, Bool.false_eq_true, if_false, hdec, if_true] at h ⊢
        simp only [List.map_append, List.map_cons, List.map_nil,
          List.mem_append, List.mem_cons, List.not_mem_nil, or_false,
          not_or] at h
        refine ⟨?_, h.1⟩
        have hne : ¬ f = entry.1 := h.2
        simp [updateMap, hne]
      · unfold processResource at h ⊢
        simp only [ht, hfr, Bool.false_eq_true, if_false, hdec] at h ⊢
        rcases hcm : cmd entry.1 with _ | m
        · simp only [hcm] at h ⊢
          exact ⟨trivial, h⟩
        · simp only [hcm] at h ⊢
          exact ⟨trivial, h⟩

theorem runCycle_unreported_frame (f : String)
    (l : List (String × String)) :
    ∀ s : LoopState,
      f ∉ ((l.foldl (processResource hashFn parseDate now chs cmd
          fetchResult) s).updatedLists.map (fun e => e.filename)) →
      (l.foldl (processResource hashFn parseDate now chs cmd fetchResult)
          s).newHashes f = s.newHashes f
        ∧ f ∉ s.updatedLists.map (fun e => e.filename) := by
  induction l with
  | nil => intro s h; exact ⟨rfl, h⟩
  | cons e l ih =>
    intro s h
    simp only [List.foldl_cons] at h ⊢
    have hrec := ih (processResource hashFn parseDate now chs cmd
      fetchResult s e) h
    have hstep := processResource_unreported_frame hashFn parseDate now chs
      cmd fetchResult s e f hrec.2
    exact ⟨hrec.1.trans hstep.1, hstep.2⟩

theorem mainExitCode_saveOk (urls : List (String × String)) :
    mainExitCode hashFn parseDate now true urls chs cmd fetchResult = 0 := by
  by_cases hl : (runCycle hashFn parseDate now urls chs cmd
    fetchResult).updatedLists.length > 0
  · simp [mainExitCode, checkForUpdates, hl]
  · simp [mainExitCode, checkForUpdates, hl]

end Lemmas

/-- Claim C1, counterexample: with no stored hash for `"a.txt"`, the fetch is
reported as changed but the change reason is `"content hash changed"` (the
hash signal fires because `undefined !== newHash`), not `"first time"`. -/
theorem c1_counterexample :
    (fun _ => (none : Option String)) "a.txt" = none
    ∧ ((processResource (fun _ => "H") (fun _ => 0) 0
        (fun _ => (none : Option String)) (fun _ => (none : Option Metadata))
        (fun _ => .success ("x") noHeaders)
        (initState (fun _ => none) (fun _ => none))
        ("a.txt", "u")).updatedLists.map (fun e => e.changeReason))
      = ["content hash changed"]
    ∧ reportedChangeReason ("content hash changed") ≠ "first time" := by
  exact ⟨rfl, by decide, by decide⟩

/-- Claim C1 (amended): when the stored hash is absent the Change Detector
always reports changed, and the reason always begins with
`"content hash changed"` — the `'first time'` fallback of line 187 is
unreachable, because `oldHash !== newHash` always fires for an absent hash. -/
theorem c1_amended (m : Option Metadata) (newHash : String)
    (lastModified : Int) (etagHeader : Option String) :
    (changeDecision none m newHash lastModified etagHeader).1 = true
    ∧ ∃ rest, (changeDecision none m newHash lastModified etagHeader).2
        = "content hash changed" ++ rest := by
  simp only [changeDecision, reasonAppend]
  repeat' split
  all_goals first
  | exact ⟨rfl, "", by decide⟩
  | exact ⟨rfl, " and timestamp newer", by decide⟩
  | exact ⟨rfl, " and ETag changed", by decide⟩
  | exact ⟨rfl, " and timestamp newer and ETag changed", by decide⟩
  | simp_all


/-- The change decision is `(false, "")` when the hash matches, the
effective time is not strictly newer than any stored time, and no pair of
truthy ETags differs. -/
theorem changeDecision_unchanged (oldHash : Option String)
    (om : Option Metadata) (nh : String) (lm : Int) (e : Option String)
    (h1 : oldHash = some nh)
    (h2 : ∀ m t, om = some m → m.lastModified = some t → ¬ t < lm)
    (h3 : ∀ m et oe, om = some m → e = some et → m.etag = some oe →
      et ≠ "" → oe ≠ "" → et = oe) :
    changeDecision oldHash om nh lm e = (false, "") := by
  subst h1
  simp only [changeDecision]
  rcases om with _ | m
  · rcases e with _ | et <;> simp
  · obtain ⟨mlm, met, mver, mlc, msz⟩ := m
    rcases mlm with _ | t
    · rcases e with _ | et
      · simp
      · rcases met with _ | oe
        · simp
        · by_cases het : et = ""
          · simp [het]
          · by_cases hoe : oe = ""
            · simp [het, hoe]
            · have heq := h3 ⟨none, some oe, mver, mlc, msz⟩ et oe rfl rfl
                rfl het hoe
              subst heq
              simp [het, hoe]
    · have hnl : ¬ t < lm := h2 ⟨some t, met, mver, mlc, msz⟩ t rfl rfl
      rcases e with _ | et
      · simp [hnl]
      · rcases met with _ | oe
        · simp [hnl]
        · by_cases het : et = ""
          · simp [hnl, het]
          · by_cases hoe : oe = ""
            · simp [hnl, het, hoe]
            · have heq := h3 ⟨some t, some oe, mver, mlc, msz⟩ et oe rfl
                rfl rfl het hoe
              subst heq
              simp [hnl, het, hoe]

/-- Claim C2: with a stored hash equal to the hash of the (byte-identical)
fetched content, and the ETag and timestamp signals unchanged or absent, no
change signal fires and the resource is reported unchanged: no update event
is pushed and the hash map is untouched.  (`hashFn` is deterministic, so
byte-identical content yields the stored hash; a sha256 hex digest is
nonempty.) -/
theorem c2_identical_content_unchanged (hashFn : String → String)
    (parseDate : String → Int) (now : Int) (chs : HashesMap)
    (cmd : MetadataMap) (fetchResult : String → FetchOutcome)
    (s : LoopState) (f u content : String) (headers : Headers)
    (hHash : chs f = some (hashFn content))
    (hNonempty : hashFn content ≠ "")
    (hTime : ∀ m t, cmd f = some m → m.lastModified = some t →
      parseLastModified parseDate headers.lastModified content now ≤ t)
    (hEtag : ∀ m e oe, cmd f = some m → headers.etag = some e →
      m.etag = some oe → e ≠ "" → oe ≠ "" → e = oe)
    (hThrottle : throttleHit now (cmd f) = false)
    (hFetch : fetchResult u = .success content headers) :
    changeDecision (chs f) (cmd f) (hashFn content)
        (parseLastModified parseDate headers.lastModified content now)
        headers.etag = (false, "")
    ∧ (processResource hashFn parseDate now chs cmd fetchResult s
        (f, u)).updatedLists = s.updatedLists
    ∧ (processResource hashFn parseDate now chs cmd fetchResult s
        (f, u)).newHashes = s.newHashes := by
  have hdec : changeDecision (chs f) (cmd f) (hashFn content)
      (parseLastModified parseDate headers.lastModified content now)
      headers.etag = (false, "") :=
    changeDecision_unchanged (chs f) (cmd f) (hashFn content)
      (parseLastModified parseDate headers.lastModified content now)
      headers.etag hHash
      (fun m t hm ht => not_lt.mpr (hTime m t hm ht))
      hEtag
  have hj : jsTruthy (chs f) = true := by
    simp [jsTruthy, hHash, hNonempty]
  refine ⟨hdec, ?_, ?_⟩ <;>
  · unfold processResource
    simp only [hThrottle, Bool.false_eq_true, if_false, hFetch]
    simp only [hdec, hj]
    rcases hcm : cmd f with _ | m <;> simp [hcm]


/-- Claim C3: the effective last-modified time equals the later of the
header time and the content-line time when both are present, the present
one when exactly one is available, and `now` when neither is. -/
theorem c3_effective_time (parseDate : String → Int) (content : String)
    (now : Int) :
    (∀ hs cs, hs ≠ "" →
      headerValue ("! Last modified: ") content = some cs →
      parseLastModified parseDate (some hs) content now
        = max (parseDate hs) (parseDate cs))
    ∧ (∀ hs, hs ≠ "" →
      headerValue ("! Last modified: ") content = none →
      parseLastModified parseDate (some hs) content now = parseDate hs)
    ∧ (∀ cs, headerValue ("! Last modified: ") content = some cs →
      parseLastModified parseDate none content now = parseDate cs)
    ∧ (headerValue ("! Last modified: ") content = none →
      parseLastModified parseDate none content now = now) := by
  refine ⟨?_, ?_, ?_, ?_⟩
  · intro hs cs hhs hcs
    have hj : jsTruthy (some hs) = true := by simp [jsTruthy, hhs]
    simp only [parseLastModified, hj, if_true, hcs, Option.map_some']
    rcases le_or_lt (parseDate hs) (parseDate cs) with h | h
    · rw [if_neg (not_lt.mpr h), max_eq_right h]
    · rw [if_pos h, max_eq_left h.le]
  · intro hs hhs hnone
    have hj : jsTruthy (some hs) = true := by simp [jsTruthy, hhs]
    simp [parseLastModified, hj, hnone]
  · intro cs hcs
    simp [parseLastModified, jsTruthy, hcs]
  · intro hnone
    simp [parseLastModified, jsTruthy, hnone]

/-- Claim C4: a resource whose prior metadata records a `lastChecked` less
than 90 minutes before `now` is skipped for the cycle: the loop body is the
identity on the state, no fetch occurs, and (when no other configured entry
shares its filename) its hash and metadata entries after the cycle equal
the loaded entries. -/
theorem c4_throttle_skips (hashFn : String → String)
    (parseDate : String → Int) (now : Int) (chs : HashesMap)
    (cmd : MetadataMap) (fetchResult : String → FetchOutcome)
    (f u : String) (m : Metadata) (t : Int)
    (pre post : List (String × String))
    (hm : cmd f = some m) (ht : m.lastChecked = some t)
    (hpast : t ≤ now) (hrecent : now - t < 90 * (1000 * 60))
    (hf : f ∉ (pre ++ post).map Prod.fst) :
    (∀ s, processResource hashFn parseDate now chs cmd fetchResult s (f, u)
      = s)
    ∧ fetchOccurs now cmd f = false
    ∧ (runCycle hashFn parseDate now (pre ++ (f, u) :: post) chs cmd
        fetchResult).newHashes f = chs f
    ∧ (runCycle hashFn parseDate now (pre ++ (f, u) :: post) chs cmd
        fetchResult).newMetadata f = cmd f := by
  have hth : throttleHit now (cmd f) = true := by
    simpa [throttleHit, hm, ht] using hrecent
  have hskip : ∀ s, processResource hashFn parseDate now chs cmd
      fetchResult s (f, u) = s := fun s =>
    processResource_throttled hashFn parseDate now chs cmd fetchResult s
      (f, u) hth
  have hfp : f ∉ pre.map Prod.fst ∧ f ∉ post.map Prod.fst := by
    simp only [List.map_append, List.mem_append] at hf
    tauto
  have hcycle : runCycle hashFn parseDate now (pre ++ (f, u) :: post) chs
      cmd fetchResult
      = post.foldl (processResource hashFn parseDate now chs cmd
          fetchResult)
        (pre.foldl (processResource hashFn parseDate now chs cmd
          fetchResult) (initState chs cmd)) := by
    unfold runCycle
    rw [List.foldl_append, List.foldl_cons, hskip]
  have hpost := foldl_frame hashFn parseDate now chs cmd fetchResult f post
    (pre.foldl (processResource hashFn parseDate now chs cmd fetchResult)
      (initState chs cmd)) hfp.2
  have hpre := foldl_frame hashFn parseDate now chs cmd fetchResult f pre
    (initState chs cmd) hfp.1
  refine ⟨hskip, by simp [fetchOccurs, hth], ?_, ?_⟩
  · rw [hcycle, hpost.1, hpre.1]; rfl
  · rw [hcycle, hpost.2, hpre.2]; rfl

/-- Claim C5: a completed cycle persists the Hash Record iff at least one
resource was detected as changed, and persists the Metadata Record in both
outcomes. -/
theorem c5_persistence (hashFn : String → String)
    (parseDate : String → Int) (now : Int)
    (urls : List (String × String)) (chs : HashesMap) (cmd : MetadataMap)
    (fetchResult : String → FetchOutcome) :
    ∃ r, checkForUpdates hashFn parseDate now true urls chs cmd fetchResult
        = .ok r
      ∧ (r.hashesSaved = true ↔ (runCycle hashFn parseDate now urls chs cmd
          fetchResult).updatedLists ≠ [])
      ∧ r.metadataSaved = true := by
  by_cases hl : (runCycle hashFn parseDate now urls chs cmd
    fetchResult).updatedLists.length > 0
  · refine ⟨⟨true,
      (runCycle hashFn parseDate now urls chs cmd fetchResult).updatedLists,
      (runCycle hashFn parseDate now urls chs cmd fetchResult).newHashes,
      (runCycle hashFn parseDate now urls chs cmd fetchResult).newMetadata,
      true, true, true⟩, ?_, ?_, rfl⟩
    · simp [checkForUpdates, hl]
    · simp only [true_iff]
      exact List.ne_nil_of_length_pos hl
  · refine ⟨⟨false, [],
      (runCycle hashFn parseDate now urls chs cmd fetchResult).newHashes,
      (runCycle hashFn parseDate now urls chs cmd fetchResult).newMetadata,
      false, true, false⟩, ?_, ?_, rfl⟩
    · simp [checkForUpdates, hl]
    · simp only [gt_iff_lt, not_lt, Nat.le_zero, List.length_eq_zero] at hl
      simp [hl]

/-- Claim C6: when no change is detected and a prior metadata entry exists,
the new metadata entry is the old one with only `lastChecked` replaced by
`now`; `lastModified`, `etag`, `version` and `size` are preserved. -/
theorem c6_lastChecked_only (hashFn : String → String)
    (parseDate : String → Int) (now : Int) (chs : HashesMap)
    (cmd : MetadataMap) (fetchResult : String → FetchOutcome)
    (s : LoopState) (f u content : String) (headers : Headers)
    (m : Metadata)
    (hThrottle : throttleHit now (cmd f) = false)
    (hFetch : fetchResult u = .success content headers)
    (hm : cmd f = some m)
    (hTruthy : jsTruthy (chs f) = true)
    (hNoChange : (changeDecision (chs f) (cmd f) (hashFn content)
      (parseLastModified parseDate headers.lastModified content now)
      headers.etag).1 = false) :
    (processResource hashFn parseDate now chs cmd fetchResult s
        (f, u)).newMetadata f
      = some ⟨m.lastModified, m.etag, m.version, some now, m.size⟩ := by
  unfold processResource
  simp only [hThrottle, Bool.false_eq_true, if_false, hFetch]
  simp only [hNoChange, hTruthy, Bool.not_true, Bool.or_false,
    Bool.false_eq_true, if_false]
  simp [hm, updateMap]

/-- Claim C7: a fetch failure for one resource leaves the cycle exactly as
if the resource were absent (no state mutation for it, all other resources
processed), the exit code is 0 when the state saves succeed, and a non-zero
exit happens only when a state save fails. -/
theorem c7_failure_isolated (hashFn : String → String)
    (parseDate : String → Int) (now : Int) (chs : HashesMap)
    (cmd : MetadataMap) (fetchResult : String → FetchOutcome)
    (pre post : List (String × String)) (f u : String)
    (hFail : fetchResult u = .failure) :
    runCycle hashFn parseDate now (pre ++ (f, u) :: post) chs cmd
        fetchResult
      = runCycle hashFn parseDate now (pre ++ post) chs cmd fetchResult
    ∧ mainExitCode hashFn parseDate now true (pre ++ (f, u) :: post) chs
        cmd fetchResult = 0
    ∧ ∀ saveOk, mainExitCode hashFn parseDate now saveOk
        (pre ++ (f, u) :: post) chs cmd fetchResult ≠ 0 →
        saveOk = false := by
  refine ⟨?_, mainExitCode_saveOk hashFn parseDate now chs cmd fetchResult
    _, ?_⟩
  · unfold runCycle
    rw [List.foldl_append, List.foldl_append, List.foldl_cons,
      processResource_failure hashFn parseDate now chs cmd fetchResult _
        (f, u) hFail]
  · intro saveOk h
    cases saveOk with
    | false => rfl
    | true => exact absurd (mainExitCode_saveOk hashFn parseDate now chs
        cmd fetchResult (pre ++ (f, u) :: post)) h

/-- Claim C8: for one updated resource the commit message is
`"Update <filename> to v<version>"` (version present) or
`"Update <filename>"` (version null); for two or more it is the header
`"Update <N> EasyList files"` followed by one bullet per resource. -/
theorem c8_commit_message :
    (∀ e : UpdateEvent, ∀ v, e.version = some v → v ≠ "" →
      generateCommitMessage [e] = "Update " ++ e.filename ++ " to v" ++ v)
    ∧ (∀ e : UpdateEvent, e.version = none →
      generateCommitMessage [e] = "Update " ++ e.filename)
    ∧ (∀ l : List UpdateEvent, 2 ≤ l.length →
      generateCommitMessage l
        = "Update " ++ toString l.length ++ " EasyList files\n\n"
          ++ String.intercalate ("\n") (l.map bulletLine)) := by
  refine ⟨?_, ?_, ?_⟩
  · intro e v hv hne
    simp [generateCommitMessage, hv, hne, String.append_assoc]
  · intro e hv
    simp [generateCommitMessage, hv]
  · intro l hl
    match l, hl with
    | e1 :: e2 :: tl, _ => rfl

/-- Claim C9, counterexample: for the one-character content `"é"` the
recorded size is 1 (JS `content.length`, UTF-16 code units) while the
fetched content is 2 bytes, so the recorded size is not the byte count. -/
theorem c9_counterexample :
    ((processResource (fun _ => "H") (fun _ => 0) 0
        (fun _ => (none : Option String)) (fun _ => (none : Option Metadata))
        (fun _ => .success ("é") noHeaders)
        (initState (fun _ => none) (fun _ => none))
        ("a.txt", "u")).updatedLists.map (fun e => e.size)) = [1]
    ∧ utf8ByteCount ("é") = 2
    ∧ (1 : Nat) ≠ 2 := by
  exact ⟨by decide, by decide, by decide⟩

/-- Ascii content has equal UTF-16 code-unit count and UTF-8 byte count. -/
theorem jsStringLength_ascii (str : String)
    (h : ∀ c ∈ str.data, c.toNat < 128) :
    jsStringLength str = utf8ByteCount str := by
  unfold jsStringLength utf8ByteCount
  suffices hgen : ∀ l : List Char, (∀ c ∈ l, c.toNat < 128) →
      (l.map (fun c => if c.toNat < 65536 then 1 else 2)).sum
        = (l.map (fun c =>
            if c.toNat < 128 then 1
            else if c.toNat < 2048 then 2
            else if c.toNat < 65536 then 3
            else 4)).sum by
    exact hgen _ h
  intro l hl
  induction l with
  | nil => rfl
  | cons c cs ih =>
    simp only [List.map_cons, List.sum_cons]
    have hc : c.toNat < 128 := hl c (by simp)
    have h65536 : c.toNat < 65536 := lt_trans hc (by norm_num)
    rw [ih (fun d hd => hl d (by simp [hd]))]
    simp [hc, h65536]

/-- Claim C9 (amended): on every detected change the size recorded in the
update event and the new metadata entry is the UTF-16 code-unit count of
the content (JavaScript string length) — equal to the byte count exactly
for ASCII content. -/
theorem c9_amended (hashFn : String → String) (parseDate : String → Int)
    (now : Int) (chs : HashesMap) (cmd : MetadataMap)
    (fetchResult : String → FetchOutcome) (s : LoopState)
    (f u content : String) (headers : Headers)
    (hThrottle : throttleHit now (cmd f) = false)
    (hFetch : fetchResult u = .success content headers)
    (hChanged : ((changeDecision (chs f) (cmd f) (hashFn content)
        (parseLastModified parseDate headers.lastModified content now)
        headers.etag).1 || !(jsTruthy (chs f))) = true) :
    (∃ ev : UpdateEvent,
      (processResource hashFn parseDate now chs cmd fetchResult s
          (f, u)).updatedLists = s.updatedLists ++ [ev]
        ∧ ev.size = jsStringLength content)
    ∧ (∃ mm : Metadata,
      (processResource hashFn parseDate now chs cmd fetchResult s
          (f, u)).newMetadata f = some mm
        ∧ mm.size = some (jsStringLength content)) := by
  constructor
  · unfold processResource
    simp only [hThrottle, Bool.false_eq_true, if_false, hFetch, hChanged,
      if_true]
    exact ⟨_, rfl, rfl⟩
  · unfold processResource
    simp only [hThrottle, Bool.false_eq_true, if_false, hFetch, hChanged,
      if_true]
    refine ⟨⟨some (parseLastModified parseDate headers.lastModified content
        now), headers.etag, (extractVersion content).version, some now,
      some (jsStringLength content)⟩, ?_, rfl⟩
    simp [updateMap]

/-- Claim C10: the in-memory hash map starts as the loaded Hash Record and
a resource not reported as changed in the cycle (unchanged, throttled or
failed) keeps its loaded hash entry. -/
theorem c10_hash_frame (hashFn : String → String)
    (parseDate : String → Int) (now : Int) (chs : HashesMap)
    (cmd : MetadataMap) (fetchResult : String → FetchOutcome)
    (urls : List (String × String)) (f : String)
    (h : f ∉ ((runCycle hashFn parseDate now urls chs cmd
      fetchResult).updatedLists.map (fun e => e.filename))) :
    (initState chs cmd).newHashes = chs
    ∧ (runCycle hashFn parseDate now urls chs cmd fetchResult).newHashes f
      = chs f := by
  refine ⟨rfl, ?_⟩
  have hfr := runCycle_unreported_frame hashFn parseDate now chs cmd
    fetchResult f urls (initState chs cmd) h
  exact hfr.1


/-- Witness for claim C2 at a concrete instance. -/
theorem c2_witness :
    ((fun _ => some ("H")) "a.txt" = some ((fun _ => "H") "x"))
    ∧ ((fun _ => "H") "x" ≠ "")
    ∧ (processResource (fun _ => "H") (fun _ => 0) 0 (fun _ => some ("H"))
        (fun _ => (none : Option Metadata))
        (fun _ => .success ("x") noHeaders)
        (initState (fun _ => some ("H")) (fun _ => none))
        ("a.txt", "u")).updatedLists
      = (initState (fun _ => some ("H"))
          (fun _ => (none : Option Metadata))).updatedLists := by
  refine ⟨rfl, by decide, ?_⟩
  exact (c2_identical_content_unchanged (fun _ => "H") (fun _ => 0) 0
    (fun _ => some ("H")) (fun _ => none) (fun _ => .success ("x") noHeaders)
    (initState (fun _ => some ("H")) (fun _ => none)) "a.txt" "u" "x"
    noHeaders rfl (by decide) (fun m t hm _ => nomatch hm)
    (fun m e oe hm _ _ _ _ => nomatch hm) rfl rfl).2.1

/-- Witness for claim C3 at concrete instances: both times present, and
neither present. -/
theorem c3_witness :
    (("h" : String) ≠ ""
      ∧ headerValue ("! Last modified: ") "! Last modified: x\n" = some ("x")
      ∧ parseLastModified (fun _ => 0) (some ("h")) "! Last modified: x\n" 5
        = max ((fun _ => (0 : Int)) "h") ((fun _ => (0 : Int)) "x"))
    ∧ (headerValue ("! Last modified: ") "abc" = none
      ∧ parseLastModified (fun _ => 0) none ("abc") 5 = 5) := by
  refine ⟨⟨by decide, by decide, ?_⟩, ⟨by decide, ?_⟩⟩
  · exact (c3_effective_time (fun _ => 0) "! Last modified: x\n" 5).1 ("h")
      "x" (by decide) (by decide)
  · exact (c3_effective_time (fun _ => 0) "abc" 5).2.2.2 (by decide)

/-- Witness for claim C4 at a concrete instance. -/
theorem c4_witness :
    ((fun _ => some mChecked0) "a.txt" = some mChecked0)
    ∧ mChecked0.lastChecked = some 0
    ∧ ((0 : Int) ≤ 10)
    ∧ ((10 : Int) - 0 < 90 * (1000 * 60))
    ∧ (runCycle (fun _ => "H") (fun _ => 0) 10 ([] ++ ("a.txt", "u") :: [])
        (fun _ => (none : Option String)) (fun _ => some mChecked0)
        (fun _ => .failure)).newHashes ("a.txt")
      = (fun _ => (none : Option String)) "a.txt" := by
  refine ⟨rfl, rfl, by decide, by decide, ?_⟩
  exact (c4_throttle_skips (fun _ => "H") (fun _ => 0) 10
    (fun _ => none) (fun _ => some mChecked0) (fun _ => .failure)
    "a.txt" "u" mChecked0 0 [] [] rfl rfl (by decide) (by decide)
    (by simp)).2.2.1

/-- Witness for claim C6 at a concrete instance. -/
theorem c6_witness :
    (throttleHit 0 ((fun _ => some mEmpty) "a.txt") = false)
    ∧ ((fun _ => some mEmpty) "a.txt" = some mEmpty)
    ∧ jsTruthy ((fun _ => some ("H")) "a.txt") = true
    ∧ (processResource (fun _ => "H") (fun _ => 0) 0 (fun _ => some ("H"))
        (fun _ => some mEmpty) (fun _ => .success ("x") noHeaders)
        (initState (fun _ => some ("H")) (fun _ => some mEmpty))
        ("a.txt", "u")).newMetadata ("a.txt")
      = some ⟨mEmpty.lastModified, mEmpty.etag, mEmpty.version, some 0,
          mEmpty.size⟩ := by
  refine ⟨rfl, rfl, by decide, ?_⟩
  exact c6_lastChecked_only (fun _ => "H") (fun _ => 0) 0
    (fun _ => some ("H")) (fun _ => some mEmpty)
    (fun _ => .success ("x") noHeaders)
    (initState (fun _ => some ("H")) (fun _ => some mEmpty))
    "a.txt" "u" "x" noHeaders mEmpty rfl rfl rfl (by decide) (by decide)

/-- Witness for claim C7 at a concrete instance. -/
theorem c7_witness :
    ((fun _ => FetchOutcome.failure) "u" = FetchOutcome.failure)
    ∧ runCycle (fun _ => "H") (fun _ => 0) 0 ([] ++ ("a.txt", "u") :: [])
        (fun _ => (none : Option String)) (fun _ => (none : Option Metadata))
        (fun _ => .failure)
      = runCycle (fun _ => "H") (fun _ => 0) 0 ([] ++ [])
        (fun _ => (none : Option String)) (fun _ => (none : Option Metadata))
        (fun _ => .failure)
    ∧ mainExitCode (fun _ => "H") (fun _ => 0) 0 true
        ([] ++ ("a.txt", "u") :: []) (fun _ => (none : Option String))
        (fun _ => (none : Option Metadata)) (fun _ => .failure) = 0 := by
  refine ⟨rfl, ?_, ?_⟩
  · exact (c7_failure_isolated (fun _ => "H") (fun _ => 0) 0
      (fun _ => none) (fun _ => none) (fun _ => .failure) [] [] "a.txt" "u"
      rfl).1
  · exact (c7_failure_isolated (fun _ => "H") (fun _ => 0) 0
      (fun _ => none) (fun _ => none) (fun _ => .failure) [] [] "a.txt" "u"
      rfl).2.1

/-- Witness for claim C8 at concrete instances: one event with a version,
one without, and a two-event list. -/
theorem c8_witness :
    (evWithVersion.version = some ("1.2")
      ∧ ("1.2" : String) ≠ ""
      ∧ generateCommitMessage [evWithVersion]
        = "Update " ++ evWithVersion.filename ++ " to v" ++ "1.2")
    ∧ (evNoVersion.version = none
      ∧ generateCommitMessage [evNoVersion]
        = "Update " ++ evNoVersion.filename)
    ∧ (2 ≤ ([evWithVersion, evNoVersion] : List UpdateEvent).length
      ∧ generateCommitMessage [evWithVersion, evNoVersion]
        = "Update "
          ++ toString ([evWithVersion, evNoVersion] : List
              UpdateEvent).length
          ++ " EasyList files\n\n"
          ++ String.intercalate ("\n")
            (([evWithVersion, evNoVersion] : List
              UpdateEvent).map bulletLine)) := by
  refine ⟨⟨rfl, by decide, ?_⟩, ⟨rfl, ?_⟩, ⟨by decide, ?_⟩⟩
  · exact c8_commit_message.1 evWithVersion ("1.2") rfl (by decide)
  · exact c8_commit_message.2.1 evNoVersion rfl
  · exact c8_commit_message.2.2 [evWithVersion, evNoVersion] (by decide)

/-- Witness for claim C9 (amended) at a concrete instance. -/
theorem c9_witness :
    (throttleHit 0 ((fun _ => (none : Option Metadata)) "a.txt") = false)
    ∧ (∃ ev : UpdateEvent,
        (processResource (fun _ => "H") (fun _ => 0) 0
          (fun _ => (none : Option String))
          (fun _ => (none : Option Metadata))
          (fun _ => .success ("x") noHeaders)
          (initState (fun _ => none) (fun _ => none))
          ("a.txt", "u")).updatedLists
        = (initState (fun _ => (none : Option String))
            (fun _ => (none : Option Metadata))).updatedLists ++ [ev]
        ∧ ev.size = jsStringLength ("x")) := by
  refine ⟨rfl, ?_⟩
  exact (c9_amended (fun _ => "H") (fun _ => 0) 0 (fun _ => none)
    (fun _ => none) (fun _ => .success ("x") noHeaders)
    (initState (fun _ => none) (fun _ => none)) "a.txt" "u" "x" noHeaders
    rfl rfl (by decide)).1

/-- Witness for claim C10 at a concrete instance. -/
theorem c10_witness :
    ("a.txt" ∉ ((runCycle (fun _ => "H") (fun _ => 0) 0 []
        (fun _ => (none : Option String)) (fun _ => (none : Option Metadata))
        (fun _ => .failure)).updatedLists.map (fun e => e.filename)))
    ∧ (runCycle (fun _ => "H") (fun _ => 0) 0 []
        (fun _ => (none : Option String)) (fun _ => (none : Option Metadata))
        (fun _ => .failure)).newHashes ("a.txt")
      = (fun _ => (none : Option String)) "a.txt" := by
  refine ⟨by decide, ?_⟩
  exact (c10_hash_frame (fun _ => "H") (fun _ => 0) 0 (fun _ => none)
    (fun _ => none) (fun _ => .failure) [] "a.txt" (by decide)).2

end EasyListMonitor
